import Mathlib

/-!
Shallow embedding of `arma-rs/src/arma.rs`: the `Value` tagged union, its
Display formatting, introspection accessors, `is_empty`, the `IntoArma`
outbound-conversion trait, and the `FromArma` inbound parsing for the
scalar types the claims touch.

Rust `f64` payloads are modelled by `F64`: NaN, signed infinities, and
finite values as exact rationals (every finite double is a rational; the
model is a superset, which only strengthens universally quantified
statements). IEEE equality (`==` on `f64`, used by `derive(PartialEq)` and
by `is_empty`) is `F64.beq`.
-/

/-- Model of a Rust `f64` payload: NaN, a signed infinity, or a finite
value given as an exact rational. -/
inductive F64 where
  | nan : F64
  | inf (negative : Bool) : F64
  | finite (q : ℚ) : F64
deriving DecidableEq

/-- IEEE-754 equality on `f64` as used by Rust `==` (and hence by the
derived `PartialEq` on `Value` and by `is_empty`): NaN compares unequal
to everything, infinities compare by sign, finite values by value. -/
def F64.beq : F64 → F64 → Bool
  | .nan, _ => false
  | _, .nan => false
  | .inf s, .inf t => s == t
  | .finite q, .finite r => q == r
  | _, _ => false

/-- The `Value` enum from `arma.rs`: `Nil`, `Number(f64)`,
`Array(Vec<Value>)`, `Boolean(bool)`, `String(String)`. -/
inductive Value where
  | Nil : Value
  | Number (n : F64) : Value
  | Array (a : List Value) : Value
  | Boolean (b : Bool) : Value
  | String (s : String) : Value

mutual

/-- Derived structural `PartialEq` on `Value` (Rust `derive(PartialEq)`):
same variant and recursively equal payloads, with `f64` payloads compared
by IEEE equality and `Vec` payloads compared elementwise. -/
def valueEq : Value → Value → Bool
  | .Nil, .Nil => true
  | .Number a, .Number b => F64.beq a b
  | .Array a, .Array b => valueListEq a b
  | .Boolean a, .Boolean b => a == b
  | .String a, .String b => a == b
  | _, _ => false
/-- Elementwise `Vec<Value>` equality used by the derived `PartialEq`. -/
def valueListEq : List Value → List Value → Bool
  | [], [] => true
  | x :: xs, y :: ys => valueEq x y && valueListEq xs ys
  | _, _ => false

end

/-- Multiplicity of the prime `p` in `n`, fuel-driven so it reduces in the
kernel; the fuel `n` itself always suffices. -/
def countFactorAux (p : Nat) : Nat → Nat → Nat
  | 0, _ => 0
  | fuel + 1, n =>
    if 2 ≤ p && n % p == 0 && n != 0 then countFactorAux p fuel (n / p) + 1 else 0

/-- Multiplicity of `p` in `n` (for `p ≥ 2`, `n ≥ 1`). -/
def countFactor (p n : Nat) : Nat := countFactorAux p n n

/-- Left-pad a digit string with zeros to width `k`. -/
def padZeros (k : Nat) (s : String) : String :=
  String.mk (List.replicate (k - s.length) '0') ++ s

/-- Models Rust `Display` for `f64` (`write!(f, "{}", n)`): the shortest
decimal string that round-trips, never scientific notation. On the exact
rational model this is the exact finite decimal expansion — every finite
double is a dyadic rational, whose denominator divides `10^k` for
`k = max (v2 den) (v5 den)`; integer-valued doubles print with no decimal
point, exactly as Rust prints them. -/
def fmtF64 : F64 → String
  | .nan => "NaN"
  | .inf false => "inf"
  | .inf true => "-inf"
  | .finite q =>
    if q.den = 1 then toString q.num
    else
      let k := max (countFactor 2 q.den) (countFactor 5 q.den)
      let m := q.num.natAbs * 10 ^ k / q.den
      let sign := if q.num < 0 then "-" else ""
      sign ++ toString (m / 10 ^ k) ++ "." ++ padZeros k (toString (m % 10 ^ k))

/-- Models Rust `str::replace` for a nonempty pattern (the one call site
uses the single-character pattern `"`): scan left to right, replacing each
non-overlapping occurrence of `pat` by `rep`. -/
def listReplace (pat rep : List Char) (s : List Char) : List Char :=
  match s with
  | [] => []
  | x :: rest =>
    if h : pat.isPrefixOf (x :: rest) ∧ pat ≠ [] then
      rep ++ listReplace pat rep ((x :: rest).drop pat.length)
    else
      x :: listReplace pat rep rest
termination_by s.length
decreasing_by
  · simp only [List.length_drop, List.length_cons]
    have hp : 0 < pat.length := List.length_pos.mpr h.2
    omega
  · simp only [List.length_cons]
    omega

/-- Rust `str::replace` lifted to `String` (nonempty pattern). -/
def strReplace (s pat rep : String) : String :=
  String.mk (listReplace pat.data rep.data s.data)

mutual

/-- The `Display` impl for `Value`: `Nil` → `null`, `Number` → default
float formatting, `Array` → recursively formatted elements joined with
`,` inside `[` `]`, `Boolean` → `true`/`false`, `String` → the payload
with every `"` doubled, wrapped in `"` quotes. -/
def fmtValue : Value → String
  | .Nil => "null"
  | .Number n => fmtF64 n
  | .Array a => "[" ++ String.intercalate "," (fmtValueList a) ++ "]"
  | .Boolean b => if b then "true" else "false"
  | .String s => "\"" ++ strReplace s "\"" "\"\"" ++ "\""

/-- `a.iter().map(ToString::to_string)` over a `Vec<Value>`. -/
def fmtValueList : List Value → List String
  | [] => []
  | v :: vs => fmtValue v :: fmtValueList vs

end

/-- `Value::as_null`: `Some(())` on `Nil`, `None` otherwise. -/
def Value.as_null : Value → Option Unit
  | .Nil => some ()
  | _ => none

/-- `Value::is_nil`: `self.as_null().is_some()`. -/
def Value.is_nil (v : Value) : Bool := v.as_null.isSome

/-- `Value::as_f64`: `Some(n)` on `Number(n)`, `None` otherwise. -/
def Value.as_f64 : Value → Option F64
  | .Number n => some n
  | _ => none

/-- `Value::is_number`: `self.as_f64().is_some()`. -/
def Value.is_number (v : Value) : Bool := v.as_f64.isSome

/-- `Value::as_vec`: `Some(vec)` on `Array(vec)`, `None` otherwise. -/
def Value.as_vec : Value → Option (List Value)
  | .Array a => some a
  | _ => none

/-- `Value::is_array`: `self.as_vec().is_some()`. -/
def Value.is_array (v : Value) : Bool := v.as_vec.isSome

/-- `Value::as_bool`: `Some(b)` on `Boolean(b)`, `None` otherwise. -/
def Value.as_bool : Value → Option Bool
  | .Boolean b => some b
  | _ => none

/-- `Value::is_boolean`: `self.as_bool().is_some()`. -/
def Value.is_boolean (v : Value) : Bool := v.as_bool.isSome

/-- Alias for the text type, usable inside the `Value` namespace where
the bare name `String` resolves to the `Value.String` constructor. -/
abbrev StrT := String

/-- `Value::as_str`: `Some(s)` on `String(s)`, `None` otherwise. -/
def Value.as_str : Value → Option StrT
  | .String s => some s
  | _ => none

/-- `Value::is_string`: `self.as_str().is_some()`. -/
def Value.is_string (v : Value) : Bool := v.as_str.isSome

/-- `Value::is_empty`: `Nil` → true, `Number(n)` → `n == 0.0` (IEEE
equality), `Array(a)` → `a.is_empty()`, `Boolean(b)` → `!b`,
`String(s)` → `s.is_empty()` (a Rust string has zero bytes iff it has
zero characters, so the test is taken on the character list). -/
def Value.is_empty : Value → Bool
  | .Nil => true
  | .Number n => F64.beq n (.finite 0)
  | .Array a => a.isEmpty
  | .Boolean b => !b
  | .String s => s.data.isEmpty

/-- Discriminant of the `Value` variant, for stating that equal values
share a variant. -/
def tagOf : Value → Nat
  | .Nil => 0
  | .Number _ => 1
  | .Array _ => 2
  | .Boolean _ => 3
  | .String _ => 4

/-- The `IntoArma` trait: a type that can produce a `Value` from a
borrowed self. -/
class IntoArma (α : Type) where
  to_arma : α → Value

export IntoArma (to_arma)

/-- Body of the blanket `impl<T: IntoArma> IntoArma for Vec<T>` (and the
identical `impl for &[T]`): convert each element and collect into
`Value::Array`. -/
def seq_to_arma (f : α → Value) (l : List α) : Value :=
  Value.Array (l.map f)

/-- `impl<T: IntoArma> IntoArma for Vec<T>`. -/
instance instIntoArmaList (α : Type) [IntoArma α] : IntoArma (List α) :=
  ⟨seq_to_arma to_arma⟩

/-- `impl<T: IntoArma> IntoArma for &[T]`: textually identical body to the
`Vec<T>` impl. -/
def slice_to_arma (f : α → Value) (l : List α) : Value :=
  Value.Array (l.map f)

/-- `impl IntoArma for Vec<Value>`: direct wrapping, `Value::Array(self.clone())`. -/
def vecValue_to_arma (l : List Value) : Value :=
  Value.Array l

/-- `impl IntoArma for bool`: `Value::Boolean(*self)`. -/
instance : IntoArma Bool := ⟨fun b => Value.Boolean b⟩

/-- `impl IntoArma for String` / `&'static str`: `Value::String(self.to_string())`. -/
instance : IntoArma String := ⟨fun s => Value.String s⟩

/-- `impl IntoArma for i32` (likewise i8/i16): `Value::Number(*self as f64)`;
every 32-bit integer is exactly representable as a double, so the cast is
the exact rational embedding. -/
instance : IntoArma Int := ⟨fun n => Value.Number (.finite (n : ℚ))⟩

/-- `impl<T: IntoArma> IntoArma for Option<T>`: convert the wrapped value
when present, `Value::Nil` when absent. -/
def option_to_arma (f : α → Value) : Option α → Value
  | some v => f v
  | none => Value.Nil

instance instIntoArmaOption (α : Type) [IntoArma α] : IntoArma (Option α) :=
  ⟨option_to_arma to_arma⟩

instance {ε α : Type} [DecidableEq ε] [DecidableEq α] : DecidableEq (Except ε α)
  | .error e, .error f =>
    if h : e = f then .isTrue (by simp [h]) else .isFalse (by simp [h])
  | .error _, .ok _ => .isFalse (by simp)
  | .ok _, .error _ => .isFalse (by simp)
  | .ok a, .ok b =>
    if h : a = b then .isTrue (by simp [h]) else .isFalse (by simp [h])

/-- Numeric value of an ASCII decimal digit, `None` on any other
character — the digit test done by Rust's integer `FromStr`. -/
def digitVal (c : Char) : Option Nat :=
  if '0' ≤ c ∧ c ≤ '9' then some (c.toNat - '0'.toNat) else none

/-- Accumulate a decimal digit string into a natural number; `None` as
soon as a non-digit appears. -/
def digitsToNatAux : Nat → List Char → Option Nat
  | acc, [] => some acc
  | acc, c :: rest =>
    match digitVal c with
    | some d => digitsToNatAux (acc * 10 + d) rest
    | none => none

/-- Models Rust `FromStr` for the signed integer types, with `i32`'s
bounds passed in: an optional `+`/`-` sign, then one or more ASCII
digits, range-checked; error strings are the `Display` texts of Rust's
`ParseIntError` kinds, which `from_arma` forwards via `e.to_string()`. -/
def parseSigned (lo hi : Int) (s : String) : Except String Int :=
  match s.data with
  | [] => .error "cannot parse integer from empty string"
  | c :: rest =>
    let neg := c = '-'
    let ds := if c = '-' || c = '+' then rest else c :: rest
    match digitsToNatAux 0 ds with
    | none => .error "invalid digit found in string"
    | some n =>
      if ds.isEmpty then .error "invalid digit found in string"
      else
        let v : Int := if neg then -(n : Int) else (n : Int)
        if v < lo then .error "number too small to fit in target type"
        else if v > hi then .error "number too large to fit in target type"
        else .ok v

/-- Models Rust `FromStr` for the unsigned integer types: an optional `+`
sign (a `-` is an invalid digit), then one or more ASCII digits,
range-checked against the width's maximum. -/
def parseUnsigned (hi : Nat) (s : String) : Except String Nat :=
  match s.data with
  | [] => .error "cannot parse integer from empty string"
  | c :: rest =>
    let ds := if c = '+' then rest else c :: rest
    match digitsToNatAux 0 ds with
    | none => .error "invalid digit found in string"
    | some n =>
      if ds.isEmpty then .error "invalid digit found in string"
      else if n > hi then .error "number too large to fit in target type"
      else .ok n

/-- `impl FromArma for i32` via `impl_from_arma!`:
`s.parse::<i32>().map_err(|e| e.to_string())`. -/
def i32_from_arma (s : String) : Except String Int :=
  parseSigned (-2147483648) 2147483647 s

/-- `impl FromArma for u32` via `impl_from_arma!`:
`s.parse::<u32>().map_err(|e| e.to_string())`. -/
def u32_from_arma (s : String) : Except String Nat :=
  parseUnsigned 4294967295 s

/-- `impl FromArma for bool` via `impl_from_arma!`: Rust `bool::from_str`
accepts exactly `"true"` and `"false"`; the error string is
`ParseBoolError`'s `Display` text. -/
def bool_from_arma (s : String) : Except String Bool :=
  if s = "true" then .ok true
  else if s = "false" then .ok false
  else .error "provided string was not `true` or `false`"

/-- Single-character patterns expand each occurrence of the character
independently: `str::replace` with pattern `[c]` is the per-character map
that sends `c` to `rep` and every other character to itself. -/
theorem listReplace_single (c : Char) (rep : List Char) (s : List Char) :
    listReplace [c] rep s = s.flatMap (fun x => if x = c then rep else [x]) := by
  induction s with
  | nil => simp [listReplace]
  | cons x xs ih =>
    rw [listReplace]
    by_cases hx : x = c
    · subst hx
      simp [List.isPrefixOf, ih]
    · simp [List.isPrefixOf, hx, ih, Ne.symm hx]

/-- The one `str::replace` call site of the Display impl, characterized:
doubling the quotes of `s` is the per-character expansion that sends `"`
to `""` and fixes every other character. -/
theorem strReplace_quote (s : String) :
    strReplace s "\"" "\"\"" =
      String.mk (s.data.flatMap (fun x => if x = '"' then ['"', '"'] else [x])) := by
  simp [strReplace, listReplace_single]

/-- The formatted-element list is the pointwise map of the formatter. -/
theorem fmtValueList_eq_map (a : List Value) : fmtValueList a = a.map fmtValue := by
  induction a with
  | nil => rfl
  | cons v vs ih => simp [fmtValueList, ih]

/-- `get?` commutes with `map`. -/
theorem get?_map_comm (f : α → β) : ∀ (l : List α) (i : Nat),
    (l.map f).get? i = (l.get? i).map f
  | [], _ => rfl
  | _ :: _, 0 => rfl
  | _ :: xs, i + 1 => get?_map_comm f xs i

/-- C1: formatting `Value::String(s)` wraps the text in double quotes and
doubles every double-quote character of `s`, altering no other character
— character for character, the output is a quote, then each character of
`s` expanded (a quote becomes two quotes, anything else stays itself),
then a closing quote; the string containing `say "hi"` formats as
`"say ""hi"""`. -/
theorem C1_string_formatting :
    (∀ s : String, (fmtValue (Value.String s)).data =
      '"' :: (s.data.flatMap (fun c => if c = '"' then ['"', '"'] else [c]) ++ ['"'])) ∧
    fmtValue (Value.String "say \"hi\"") = "\"say \"\"hi\"\"\"" := by
  constructor
  · intro s
    simp [fmtValue, strReplace_quote, String.data_append]
  · simp [fmtValue, strReplace_quote]

/-- C2: formatting `Value::Array` joins the recursively formatted
elements, in order, with single commas inside square brackets; the empty
array formats as `[]`, and the sample array formats as `["a",1,null]`
(so `Nil` prints `null` and `Number(1.0)` prints `1`). -/
theorem C2_array_formatting :
    (∀ a : List Value, fmtValue (Value.Array a) =
      "[" ++ String.intercalate "," (a.map fmtValue) ++ "]") ∧
    fmtValue (Value.Array []) = "[]" ∧
    fmtValue (Value.Array [.String "a", .Number (.finite 1), .Nil]) = "[\"a\",1,null]" ∧
    fmtValue Value.Nil = "null" ∧
    fmtValue (Value.Number (.finite 1)) = "1" := by
  refine ⟨fun a => by simp [fmtValue, fmtValueList_eq_map], by decide, ?_, by decide, by decide⟩
  simp [fmtValue, fmtValueList, strReplace_quote]
  decide

/-- C3: inbound conversion parses `"42"` as a 32-bit integer (signed or
unsigned) to 42, rejects `"abc"` with a nonempty human-readable error,
and parses `"true"`/`"false"` as the matching boolean; every failure is
an `error` value of the total parsing function, never a panic. -/
theorem C3_inbound_conversion :
    i32_from_arma "42" = .ok 42 ∧
    (∃ e, i32_from_arma "abc" = .error e ∧ e ≠ "") ∧
    u32_from_arma "42" = .ok 42 ∧
    (∃ e, u32_from_arma "abc" = .error e ∧ e ≠ "") ∧
    bool_from_arma "true" = .ok true ∧
    bool_from_arma "false" = .ok false :=
  ⟨by decide, ⟨"invalid digit found in string", by decide, by decide⟩,
   by decide, ⟨"invalid digit found in string", by decide, by decide⟩,
   by decide, by decide⟩

/-- C4: `is_empty` holds exactly per variant — `Nil` always; `Number(x)`
iff `x` IEEE-equals 0.0 (true for 0.0, false for every nonzero, infinite
or NaN payload); `Boolean(b)` iff `b` is false; `String(s)` iff `s` has
zero length; `Array(a)` iff `a` has zero elements. -/
theorem C4_is_empty :
    Value.is_empty Value.Nil = true ∧
    (∀ x : F64, Value.is_empty (Value.Number x) = true ↔ x = F64.finite 0) ∧
    (∀ b, Value.is_empty (Value.Boolean b) = !b) ∧
    (∀ s : String, Value.is_empty (Value.String s) = true ↔ s.length = 0) ∧
    (∀ a : List Value, Value.is_empty (Value.Array a) = true ↔ a.length = 0) := by
  refine ⟨rfl, fun x => ?_, fun b => rfl, fun s => ?_, fun a => ?_⟩
  · cases x <;> simp [Value.is_empty, F64.beq]
  · cases s with
    | mk data => cases data <;> simp [Value.is_empty, String.length]
  · cases a <;> simp [Value.is_empty]

/-- C5: on every `Value` exactly one of the five `is_*` predicates holds,
and per variant the paired `as_*` accessor returns `some` carrying the
payload while the other four return `none`; all are total functions. -/
theorem C5_accessors :
    (∀ v : Value, v.is_nil.toNat + v.is_number.toNat + v.is_boolean.toNat +
      v.is_string.toNat + v.is_array.toNat = 1) ∧
    (Value.Nil.as_null = some () ∧ Value.Nil.as_f64 = none ∧ Value.Nil.as_bool = none ∧
      Value.Nil.as_str = none ∧ Value.Nil.as_vec = none) ∧
    (∀ n, (Value.Number n).as_f64 = some n ∧ (Value.Number n).as_null = none ∧
      (Value.Number n).as_bool = none ∧ (Value.Number n).as_str = none ∧
      (Value.Number n).as_vec = none) ∧
    (∀ b, (Value.Boolean b).as_bool = some b ∧ (Value.Boolean b).as_null = none ∧
      (Value.Boolean b).as_f64 = none ∧ (Value.Boolean b).as_str = none ∧
      (Value.Boolean b).as_vec = none) ∧
    (∀ s, (Value.String s).as_str = some s ∧ (Value.String s).as_null = none ∧
      (Value.String s).as_f64 = none ∧ (Value.String s).as_bool = none ∧
      (Value.String s).as_vec = none) ∧
    (∀ a, (Value.Array a).as_vec = some a ∧ (Value.Array a).as_null = none ∧
      (Value.Array a).as_f64 = none ∧ (Value.Array a).as_bool = none ∧
      (Value.Array a).as_str = none) := by
  refine ⟨fun v => ?_, ?_, ?_, ?_, ?_, ?_⟩ <;>
    first
    | (cases v <;>
        simp [Value.is_nil, Value.is_number, Value.is_boolean, Value.is_string,
          Value.is_array, Value.as_null, Value.as_f64, Value.as_bool, Value.as_str,
          Value.as_vec])
    | simp [Value.as_null, Value.as_f64, Value.as_bool, Value.as_str, Value.as_vec]

/-- C6: converting a sequence (`Vec<T>` or `&[T]`) of convertible
elements yields `Value::Array` of the elementwise conversions in the
original order (position `i` of the payload is the conversion of position
`i` of the input), and the rule composes: a sequence of sequences yields
the nested `Array` with no depth-specific special-casing. -/
theorem C6_seq_conversion (α : Type) [IntoArma α] (l : List α) :
    to_arma l = Value.Array (l.map to_arma) ∧
    slice_to_arma to_arma l = to_arma l ∧
    (∀ i : Nat, (l.map (to_arma : α → Value)).get? i = (l.get? i).map to_arma) ∧
    (∀ ll : List (List α), to_arma ll =
      Value.Array (ll.map (fun l2 => Value.Array (l2.map to_arma)))) := by
  refine ⟨rfl, rfl, fun i => get?_map_comm _ l i, fun ll => ?_⟩
  simp [instIntoArmaList, seq_to_arma]

/-- Concrete instantiation of the sequence-conversion rule: a vector of
native integers converts to the Array of their Number conversions. -/
theorem C6_seq_conversion_witness :
    to_arma [(1 : Int), 2] = Value.Array ([(1 : Int), 2].map to_arma) :=
  (C6_seq_conversion Int [(1 : Int), 2]).1

/-- C7: converting `Some(x)` yields the same `Value` as converting `x`
directly, and converting `None` yields `Value::Nil`, for every
convertible type. -/
theorem C7_option_conversion (α : Type) [IntoArma α] (x : α) :
    to_arma (some x) = to_arma x ∧ to_arma (none : Option α) = Value.Nil :=
  ⟨rfl, rfl⟩

/-- Concrete instantiation of the Option-conversion rule at a boolean. -/
theorem C7_option_conversion_witness :
    to_arma (some true) = to_arma true ∧ to_arma (none : Option Bool) = Value.Nil :=
  C7_option_conversion Bool true

/-- C8: the dedicated `Vec<Value>` conversion wraps the vector directly
as `Value::Array` of exactly its elements, and this coincides with what
the general element-wise sequence rule gives under the identity element
conversion — an optimization path, not a behavioral difference. -/
theorem C8_vec_value (l : List Value) :
    vecValue_to_arma l = Value.Array l ∧
    vecValue_to_arma l = seq_to_arma id l := by
  refine ⟨rfl, ?_⟩
  simp [vecValue_to_arma, seq_to_arma]

/-- C9: the derived equality on `Value` is structural — same variant
(values comparing equal always share a variant tag) and recursively
equal payloads, with `Number` payloads compared by IEEE float equality,
so `Number(NaN)` does not equal `Number(NaN)`. -/
theorem C9_structural_eq :
    (∀ x y, valueEq (Value.Number x) (Value.Number y) = F64.beq x y) ∧
    (∀ b c, valueEq (Value.Boolean b) (Value.Boolean c) = (b == c)) ∧
    (∀ s t, valueEq (Value.String s) (Value.String t) = (s == t)) ∧
    (∀ a b, valueEq (Value.Array a) (Value.Array b) = valueListEq a b) ∧
    valueEq Value.Nil Value.Nil = true ∧
    valueListEq [] [] = true ∧
    (∀ x xs y ys, valueListEq (x :: xs) (y :: ys) = (valueEq x y && valueListEq xs ys)) ∧
    (∀ v w, valueEq v w = (valueEq v w && (tagOf v == tagOf w))) ∧
    valueEq (Value.Number F64.nan) (Value.Number F64.nan) = false := by
  refine ⟨fun x y => rfl, fun b c => rfl, fun s t => rfl, fun a b => rfl, rfl, rfl,
    fun x xs y ys => rfl, fun v w => ?_, rfl⟩
  cases v <;> cases w <;> simp [valueEq, tagOf]

/-- C10: the outbound/inbound scalar pipeline round-trips booleans
exactly — converting a bool to a `Value`, formatting it, and parsing the
text back as a bool returns `ok` of the original bool. -/
theorem C10_bool_roundtrip (b : Bool) :
    bool_from_arma (fmtValue (to_arma b)) = .ok b := by
  cases b <;> decide
